import Mathlib

/-!
Verification of the infinite-canvas note/drawing board.

Shallow embedding of the viewport geometry (client components
`InfiniteCanvas` / `DrawingTool`) and of the persistence handlers
(`create_text_note`, `create_drawing`, `update_text_note`,
`update_drawing`, `get_canvas_elements`, `bulk_update_elements`)
over an explicit storage state.  Machine floats are modelled by `ℚ`
(the claims under test are exact algebraic identities), timestamps
by `ℕ`, uuids by `String`.
-/

namespace InfCanvas

/-- A 2-D point (screen or canvas space). -/
structure Point where
  x : ℚ
  y : ℚ
deriving DecidableEq

/-- A width/height pair. -/
structure Dim where
  width : ℚ
  height : ℚ
deriving DecidableEq

/-- The client viewport: pan offset `x`,`y`, visible `width`/`height`, `zoom`. -/
structure CanvasViewport where
  x : ℚ
  y : ℚ
  width : ℚ
  height : ℚ
  zoom : ℚ
deriving DecidableEq

/-- Screen-to-canvas transform, as in `DrawingTool.getCanvasCoordinates` and the
pointer handlers of `InfiniteCanvas`: `(p - offset) / zoom` componentwise. -/
def toCanvas (p : Point) (vp : CanvasViewport) : Point :=
  { x := (p.x - vp.x) / vp.zoom, y := (p.y - vp.y) / vp.zoom }

/-- Canvas-to-screen transform, as realised by the CSS transform
`translate(vp.x, vp.y) scale(vp.zoom)` in `InfiniteCanvas`:
`p * zoom + offset` componentwise. -/
def toScreen (p : Point) (vp : CanvasViewport) : Point :=
  { x := p.x * vp.zoom + vp.x, y := p.y * vp.zoom + vp.y }

/-- The wheel-zoom handler `InfiniteCanvas.handleWheel`: the zoom delta is
`deltaY * -0.001`, the new zoom is clamped to `[0.1, 3]`, and the offset is
moved so as to zoom towards the mouse position. -/
def handleWheel (vp : CanvasViewport) (deltaY : ℚ) (mouse : Point) : CanvasViewport :=
  let delta := deltaY * (-0.001)
  let newZoom := max 0.1 (min 3 (vp.zoom + delta))
  let zoomRatio := newZoom / vp.zoom
  let newX := mouse.x - (mouse.x - vp.x) * zoomRatio
  let newY := mouse.y - (mouse.y - vp.y) * zoomRatio
  { vp with zoom := newZoom, x := newX, y := newY }

/-- Claim C8: for every viewport with `zoom > 0` the transforms
`toCanvas` and `toScreen` are mutual inverses (exactly, over `ℚ`). -/
theorem c8_transform_roundtrip (vp : CanvasViewport) (p : Point) (hz : 0 < vp.zoom) :
    toScreen (toCanvas p vp) vp = p ∧ toCanvas (toScreen p vp) vp = p := by
  have hz' : vp.zoom ≠ 0 := ne_of_gt hz
  constructor
  · simp only [toCanvas, toScreen]
    cases p with
    | mk px py =>
      simp only [Point.mk.injEq]
      constructor <;> field_simp
  · simp only [toCanvas, toScreen]
    cases p with
    | mk px py =>
      simp only [Point.mk.injEq]
      constructor <;> field_simp

/-- Witness for C8 at a concrete viewport and point. -/
theorem c8_transform_roundtrip_witness :
    toScreen (toCanvas ⟨7, -3⟩ ⟨5, 6, 800, 600, 2⟩) ⟨5, 6, 800, 600, 2⟩ = ⟨7, -3⟩ ∧
      toCanvas (toScreen ⟨7, -3⟩ ⟨5, 6, 800, 600, 2⟩) ⟨5, 6, 800, 600, 2⟩ = ⟨7, -3⟩ :=
  c8_transform_roundtrip ⟨5, 6, 800, 600, 2⟩ ⟨7, -3⟩ (by norm_num)

/-- Claim C4: the wheel-zoom sets `zoom' = clamp (zoom + deltaY * -0.001) [0.1, 3]`
and `offset' = p - (p - offset) * (zoom'/zoom)`, and keeps the canvas-space
location of the anchor point invariant (exactly, over `ℚ`). -/
theorem c4_wheel_zoom_anchor_invariant (vp : CanvasViewport) (deltaY : ℚ) (p : Point)
    (hz : 0 < vp.zoom) :
    (handleWheel vp deltaY p).zoom = max 0.1 (min 3 (vp.zoom + deltaY * (-0.001))) ∧
    (handleWheel vp deltaY p).x
      = p.x - (p.x - vp.x) * ((handleWheel vp deltaY p).zoom / vp.zoom) ∧
    (handleWheel vp deltaY p).y
      = p.y - (p.y - vp.y) * ((handleWheel vp deltaY p).zoom / vp.zoom) ∧
    toCanvas p (handleWheel vp deltaY p) = toCanvas p vp := by
  have hz' : vp.zoom ≠ 0 := ne_of_gt hz
  have hzn : (0 : ℚ) < max 0.1 (min 3 (vp.zoom + deltaY * (-0.001))) :=
    lt_max_of_lt_left (by norm_num)
  have hzn' : max 0.1 (min 3 (vp.zoom + deltaY * (-0.001))) ≠ 0 := ne_of_gt hzn
  refine ⟨rfl, rfl, rfl, ?_⟩
  simp only [toCanvas, handleWheel, Point.mk.injEq]
  constructor <;> field_simp <;> ring

/-- Witness for C4 at a concrete viewport, wheel delta and anchor. -/
theorem c4_wheel_zoom_anchor_invariant_witness :
    (handleWheel ⟨10, 20, 800, 600, 1⟩ 500 ⟨100, 50⟩).zoom
      = max 0.1 (min 3 ((1 : ℚ) + 500 * (-0.001))) ∧
    (handleWheel ⟨10, 20, 800, 600, 1⟩ 500 ⟨100, 50⟩).x
      = 100 - (100 - 10) * ((handleWheel ⟨10, 20, 800, 600, 1⟩ 500 ⟨100, 50⟩).zoom / 1) ∧
    (handleWheel ⟨10, 20, 800, 600, 1⟩ 500 ⟨100, 50⟩).y
      = 50 - (50 - 20) * ((handleWheel ⟨10, 20, 800, 600, 1⟩ 500 ⟨100, 50⟩).zoom / 1) ∧
    toCanvas ⟨100, 50⟩ (handleWheel ⟨10, 20, 800, 600, 1⟩ 500 ⟨100, 50⟩)
      = toCanvas ⟨100, 50⟩ ⟨10, 20, 800, 600, 1⟩ :=
  c4_wheel_zoom_anchor_invariant ⟨10, 20, 800, 600, 1⟩ 500 ⟨100, 50⟩ (by norm_num)

/-- A stroke point: canvas- or element-local coordinates and optional pressure. -/
structure StrokePoint where
  x : ℚ
  y : ℚ
  pressure : Option ℚ
deriving DecidableEq

/-- A stroke: its points, colour and width (`DrawingTool`'s local `Stroke`). -/
structure Stroke where
  points : List StrokePoint
  color : String
  width : ℚ
deriving DecidableEq

/-- Input to `createDrawing` (position, size, strokes, z-index). -/
structure CreateDrawingInput where
  position : Point
  size : Dim
  strokes : List Stroke
  z_index : Int
deriving DecidableEq

/-- `Math.min(...l.map(f))` seeded with the head's value, as a left fold. -/
def listMin (f : StrokePoint → ℚ) (p : StrokePoint) (ps : List StrokePoint) : ℚ :=
  ps.foldl (fun m q => min m (f q)) (f p)

/-- `Math.max(...l.map(f))` seeded with the head's value, as a left fold. -/
def listMax (f : StrokePoint → ℚ) (p : StrokePoint) (ps : List StrokePoint) : ℚ :=
  ps.foldl (fun m q => max m (f q)) (f p)

/-- The bounding box / padding / normalization computation of
`DrawingTool.handleMouseUp` for a captured stroke `p :: ps`. -/
def mkDrawingInput (p : StrokePoint) (ps : List StrokePoint) (strokeColor : String)
    (strokeWidth : ℚ) (zIndex : Int) : CreateDrawingInput :=
  let minX := listMin StrokePoint.x p ps
  let maxX := listMax StrokePoint.x p ps
  let minY := listMin StrokePoint.y p ps
  let maxY := listMax StrokePoint.y p ps
  let padding := strokeWidth + 5
  let position : Point := { x := minX - padding, y := minY - padding }
  let size : Dim := { width := maxX - minX + padding * 2, height := maxY - minY + padding * 2 }
  let adjustedPoints := (p :: ps).map fun q =>
    { x := q.x - position.x, y := q.y - position.y, pressure := q.pressure : StrokePoint }
  { position := position, size := size,
    strokes := [{ points := adjustedPoints, color := strokeColor, width := strokeWidth }],
    z_index := zIndex }

/-- The pointer-up handler `DrawingTool.handleMouseUp`, as a pure function of the
captured canvas-space points and the tool state: with fewer than 2 points no
element is created; otherwise the padded bounding box gives position/size and
the points are re-expressed relative to the position. -/
def finishStroke (currentStroke : List StrokePoint) (strokeColor : String)
    (strokeWidth : ℚ) (zIndex : Int) : Option CreateDrawingInput :=
  match currentStroke with
  | [] => none
  | p :: ps =>
    if (p :: ps).length < 2 then none
    else some (mkDrawingInput p ps strokeColor strokeWidth zIndex)

/-- `foldl min` over a list is a lower bound of its starting value. -/
lemma foldl_min_le_init (l : List ℚ) (a : ℚ) : l.foldl min a ≤ a := by
  induction l generalizing a with
  | nil => exact le_refl a
  | cons b l ih => exact le_trans (ih (min a b)) (min_le_left a b)

/-- `foldl min` over a list is a lower bound of every element. -/
lemma foldl_min_le_mem (l : List ℚ) (a x : ℚ) (hx : x ∈ l) : l.foldl min a ≤ x := by
  induction l generalizing a with
  | nil => cases hx
  | cons b l ih =>
    rcases List.mem_cons.mp hx with h | h
    · subst h
      exact le_trans (foldl_min_le_init l (min a x)) (min_le_right a x)
    · exact ih (min a b) h

/-- `foldl min` is attained: it is the starting value or an element. -/
lemma foldl_min_attained (l : List ℚ) (a : ℚ) : l.foldl min a = a ∨ l.foldl min a ∈ l := by
  induction l generalizing a with
  | nil => exact Or.inl rfl
  | cons b l ih =>
    rcases ih (min a b) with h | h
    · rcases min_cases a b with ⟨h', _⟩ | ⟨h', _⟩
      · exact Or.inl (by rw [List.foldl_cons, h, h'])
      · exact Or.inr (by rw [List.foldl_cons, h, h']; exact List.mem_cons_self b l)
    · exact Or.inr (List.mem_cons_of_mem b h)

/-- `foldl max` over a list is an upper bound of its starting value. -/
lemma le_foldl_max_init (l : List ℚ) (a : ℚ) : a ≤ l.foldl max a := by
  induction l generalizing a with
  | nil => exact le_refl a
  | cons b l ih => exact le_trans (le_max_left a b) (ih (max a b))

/-- `foldl max` over a list is an upper bound of every element. -/
lemma le_foldl_max_mem (l : List ℚ) (a x : ℚ) (hx : x ∈ l) : x ≤ l.foldl max a := by
  induction l generalizing a with
  | nil => cases hx
  | cons b l ih =>
    rcases List.mem_cons.mp hx with h | h
    · subst h
      exact le_trans (le_max_right a x) (le_foldl_max_init l (max a x))
    · exact ih (max a b) h

/-- `foldl max` is attained: it is the starting value or an element. -/
lemma foldl_max_attained (l : List ℚ) (a : ℚ) : l.foldl max a = a ∨ l.foldl max a ∈ l := by
  induction l generalizing a with
  | nil => exact Or.inl rfl
  | cons b l ih =>
    rcases ih (max a b) with h | h
    · rcases max_cases a b with ⟨h', _⟩ | ⟨h', _⟩
      · exact Or.inl (by rw [List.foldl_cons, h, h'])
      · exact Or.inr (by rw [List.foldl_cons, h, h']; exact List.mem_cons_self b l)
    · exact Or.inr (List.mem_cons_of_mem b h)

/-- `listMin` as a fold over the projected list. -/
lemma listMin_eq_foldl_map (f : StrokePoint → ℚ) (p : StrokePoint) (ps : List StrokePoint) :
    listMin f p ps = (ps.map f).foldl min (f p) := by
  rw [listMin, List.foldl_map]

/-- `listMax` as a fold over the projected list. -/
lemma listMax_eq_foldl_map (f : StrokePoint → ℚ) (p : StrokePoint) (ps : List StrokePoint) :
    listMax f p ps = (ps.map f).foldl max (f p) := by
  rw [listMax, List.foldl_map]

/-- `listMin` is attained at one of the captured points. -/
lemma listMin_mem (f : StrokePoint → ℚ) (p : StrokePoint) (ps : List StrokePoint) :
    listMin f p ps ∈ (p :: ps).map f := by
  rw [listMin_eq_foldl_map, List.map_cons]
  rcases foldl_min_attained (ps.map f) (f p) with h | h
  · rw [h]; exact List.mem_cons_self _ _
  · exact List.mem_cons_of_mem _ h

/-- `listMin` bounds every captured point from below. -/
lemma listMin_le (f : StrokePoint → ℚ) (p : StrokePoint) (ps : List StrokePoint) :
    ∀ q ∈ p :: ps, listMin f p ps ≤ f q := by
  intro q hq
  rw [listMin_eq_foldl_map]
  rcases List.mem_cons.mp hq with h | h
  · subst h; exact foldl_min_le_init _ _
  · exact foldl_min_le_mem _ _ _ (List.mem_map_of_mem f h)

/-- `listMax` is attained at one of the captured points. -/
lemma listMax_mem (f : StrokePoint → ℚ) (p : StrokePoint) (ps : List StrokePoint) :
    listMax f p ps ∈ (p :: ps).map f := by
  rw [listMax_eq_foldl_map, List.map_cons]
  rcases foldl_max_attained (ps.map f) (f p) with h | h
  · rw [h]; exact List.mem_cons_self _ _
  · exact List.mem_cons_of_mem _ h

/-- `listMax` bounds every captured point from above. -/
lemma le_listMax (f : StrokePoint → ℚ) (p : StrokePoint) (ps : List StrokePoint) :
    ∀ q ∈ p :: ps, f q ≤ listMax f p ps := by
  intro q hq
  rw [listMax_eq_foldl_map]
  rcases List.mem_cons.mp hq with h | h
  · subst h; exact le_foldl_max_init _ _
  · exact le_foldl_max_mem _ _ _ (List.mem_map_of_mem f h)

/-- Claim C5: on pointer-up with at least 2 captured points, `finishStroke`
creates a drawing whose position is the padded bounding-box top-left
(`position + padding` is the componentwise minimum of the captured points),
whose size is the padded box extent, and whose single persisted stroke holds
exactly the captured points re-expressed relative to `position`; with fewer
than 2 points it creates nothing. -/
theorem c5_stroke_normalization (pts : List StrokePoint) (color : String) (w : ℚ) (z : Int) :
    (2 ≤ pts.length →
      ∃ input, finishStroke pts color w z = some input ∧
        (input.position.x + (w + 5) ∈ pts.map StrokePoint.x ∧
          ∀ q ∈ pts, input.position.x + (w + 5) ≤ q.x) ∧
        (input.position.y + (w + 5) ∈ pts.map StrokePoint.y ∧
          ∀ q ∈ pts, input.position.y + (w + 5) ≤ q.y) ∧
        (∃ mx ∈ pts.map StrokePoint.x, (∀ q ∈ pts, q.x ≤ mx) ∧
          input.size.width = mx - (input.position.x + (w + 5)) + (w + 5) * 2) ∧
        (∃ my ∈ pts.map StrokePoint.y, (∀ q ∈ pts, q.y ≤ my) ∧
          input.size.height = my - (input.position.y + (w + 5)) + (w + 5) * 2) ∧
        input.strokes = [{ points := pts.map fun q =>
            { x := q.x - input.position.x, y := q.y - input.position.y,
              pressure := q.pressure }, color := color, width := w }] ∧
        input.z_index = z) ∧
    (pts.length < 2 → finishStroke pts color w z = none) := by
  cases pts with
  | nil =>
    exact ⟨fun h => absurd h (by simp), fun _ => rfl⟩
  | cons p ps =>
    constructor
    · intro h2
      have hlt : ¬ ((p :: ps).length < 2) := by
        simp only [List.length_cons] at h2 ⊢
        omega
      refine ⟨mkDrawingInput p ps color w z, by simp only [finishStroke]; exact if_neg hlt,
        ?_, ?_, ?_, ?_, rfl, rfl⟩
      · have e : (mkDrawingInput p ps color w z).position.x + (w + 5)
            = listMin StrokePoint.x p ps := by
          show listMin StrokePoint.x p ps - (w + 5) + (w + 5) = _
          ring
        rw [e]
        exact ⟨listMin_mem _ p ps, listMin_le _ p ps⟩
      · have e : (mkDrawingInput p ps color w z).position.y + (w + 5)
            = listMin StrokePoint.y p ps := by
          show listMin StrokePoint.y p ps - (w + 5) + (w + 5) = _
          ring
        rw [e]
        exact ⟨listMin_mem _ p ps, listMin_le _ p ps⟩
      · refine ⟨listMax StrokePoint.x p ps, listMax_mem _ p ps, le_listMax _ p ps, ?_⟩
        show listMax StrokePoint.x p ps - listMin StrokePoint.x p ps + (w + 5) * 2
          = listMax StrokePoint.x p ps - (listMin StrokePoint.x p ps - (w + 5) + (w + 5)) + (w + 5) * 2
        ring
      · refine ⟨listMax StrokePoint.y p ps, listMax_mem _ p ps, le_listMax _ p ps, ?_⟩
        show listMax StrokePoint.y p ps - listMin StrokePoint.y p ps + (w + 5) * 2
          = listMax StrokePoint.y p ps - (listMin StrokePoint.y p ps - (w + 5) + (w + 5)) + (w + 5) * 2
        ring
    · intro h
      simp only [finishStroke]
      exact if_pos h

/-- Witness for C5 on the concrete stroke (10,20)-(30,40) with width 2. -/
theorem c5_stroke_normalization_witness :
    ∃ input, finishStroke [⟨10, 20, none⟩, ⟨30, 40, none⟩] "#000000" 2 0 = some input ∧
      (input.position.x + ((2 : ℚ) + 5) ∈
          ([⟨10, 20, none⟩, ⟨30, 40, none⟩] : List StrokePoint).map StrokePoint.x ∧
        ∀ q ∈ ([⟨10, 20, none⟩, ⟨30, 40, none⟩] : List StrokePoint),
          input.position.x + ((2 : ℚ) + 5) ≤ q.x) ∧
      (input.position.y + ((2 : ℚ) + 5) ∈
          ([⟨10, 20, none⟩, ⟨30, 40, none⟩] : List StrokePoint).map StrokePoint.y ∧
        ∀ q ∈ ([⟨10, 20, none⟩, ⟨30, 40, none⟩] : List StrokePoint),
          input.position.y + ((2 : ℚ) + 5) ≤ q.y) ∧
      (∃ mx ∈ ([⟨10, 20, none⟩, ⟨30, 40, none⟩] : List StrokePoint).map StrokePoint.x,
        (∀ q ∈ ([⟨10, 20, none⟩, ⟨30, 40, none⟩] : List StrokePoint), q.x ≤ mx) ∧
          input.size.width = mx - (input.position.x + ((2 : ℚ) + 5)) + ((2 : ℚ) + 5) * 2) ∧
      (∃ my ∈ ([⟨10, 20, none⟩, ⟨30, 40, none⟩] : List StrokePoint).map StrokePoint.y,
        (∀ q ∈ ([⟨10, 20, none⟩, ⟨30, 40, none⟩] : List StrokePoint), q.y ≤ my) ∧
          input.size.height = my - (input.position.y + ((2 : ℚ) + 5)) + ((2 : ℚ) + 5) * 2) ∧
      input.strokes = [{ points := ([⟨10, 20, none⟩, ⟨30, 40, none⟩] : List StrokePoint).map fun q =>
          { x := q.x - input.position.x, y := q.y - input.position.y,
            pressure := q.pressure }, color := "#000000", width := 2 }] ∧
      input.z_index = 0 :=
  (c5_stroke_normalization [⟨10, 20, none⟩, ⟨30, 40, none⟩] "#000000" 2 0).1 (by decide)

/-- Claim C10: every persisted stroke-point coordinate of a drawing created by
`finishStroke` lies at least `padding = strokeWidth + 5` inside the element's
bounding box on every side, and in particular is strictly positive. -/
theorem c10_point_bounds (pts : List StrokePoint) (color : String) (w : ℚ) (z : Int)
    (input : CreateDrawingInput) (hw : 0 < w + 5)
    (hf : finishStroke pts color w z = some input) :
    ∀ s ∈ input.strokes, ∀ a ∈ s.points,
      (w + 5) ≤ a.x ∧ a.x + (w + 5) ≤ input.size.width ∧ 0 < a.x ∧
      (w + 5) ≤ a.y ∧ a.y + (w + 5) ≤ input.size.height ∧ 0 < a.y := by
  cases pts with
  | nil => exact absurd hf (by simp [finishStroke])
  | cons p ps =>
    by_cases hlt : (p :: ps).length < 2
    · have hnone : finishStroke (p :: ps) color w z = none := by
        simp only [finishStroke]
        exact if_pos hlt
      rw [hnone] at hf
      cases hf
    · have hsome : finishStroke (p :: ps) color w z
          = some (mkDrawingInput p ps color w z) := by
        simp only [finishStroke]
        exact if_neg hlt
      rw [hsome, Option.some.injEq] at hf
      subst hf
      intro s hs a ha
      simp only [mkDrawingInput, List.mem_singleton] at hs
      subst hs
      simp only [List.mem_map] at ha
      obtain ⟨q, hq, rfl⟩ := ha
      have hminx := listMin_le StrokePoint.x p ps q hq
      have hmaxx := le_listMax StrokePoint.x p ps q hq
      have hminy := listMin_le StrokePoint.y p ps q hq
      have hmaxy := le_listMax StrokePoint.y p ps q hq
      simp only [mkDrawingInput]
      refine ⟨by linarith, by linarith, by linarith, by linarith, by linarith, by linarith⟩

/-- Witness for C10 on the concrete stroke (10,20)-(30,40) with width 2. -/
theorem c10_point_bounds_witness :
    ∃ s ∈ (mkDrawingInput ⟨10, 20, none⟩ [⟨30, 40, none⟩] "#000000" 2 0).strokes,
      ∃ a ∈ s.points,
        ((2 : ℚ) + 5) ≤ a.x ∧
        a.x + ((2 : ℚ) + 5)
          ≤ (mkDrawingInput ⟨10, 20, none⟩ [⟨30, 40, none⟩] "#000000" 2 0).size.width ∧
        0 < a.x ∧
        ((2 : ℚ) + 5) ≤ a.y ∧
        a.y + ((2 : ℚ) + 5)
          ≤ (mkDrawingInput ⟨10, 20, none⟩ [⟨30, 40, none⟩] "#000000" 2 0).size.height ∧
        0 < a.y := by
  refine ⟨_, List.mem_cons_self _ _, _, List.mem_cons_self _ _, ?_⟩
  exact c10_point_bounds [⟨10, 20, none⟩, ⟨30, 40, none⟩] "#000000" 2 0
    (mkDrawingInput ⟨10, 20, none⟩ [⟨30, 40, none⟩] "#000000" 2 0) (by norm_num) rfl
    _ (List.mem_cons_self _ _) _ (List.mem_cons_self _ _)

/-- The `canvas_element_type` enum of the schema. -/
inductive ElemType where
  | text_note
  | drawing
deriving DecidableEq

/-- A row of the `canvas_elements` table (shared geometry/lifecycle fields).
Numerics are modelled by `ℚ`, timestamps by `ℕ`, uuids by `String`. -/
structure SharedRow where
  id : String
  type : ElemType
  position_x : ℚ
  position_y : ℚ
  width : ℚ
  height : ℚ
  z_index : Int
  created_at : ℕ
  updated_at : ℕ
deriving DecidableEq

/-- A row of the `text_notes` payload table. -/
structure TextRow where
  id : String
  content : String
  font_size : ℚ
  font_color : String
  background_color : String
deriving DecidableEq

/-- A row of the `drawings` payload table. -/
structure DrawingRow where
  id : String
  strokes : List Stroke
deriving DecidableEq

/-- The storage state: the three tables of the schema. -/
structure DB where
  canvasElements : List SharedRow
  textNotes : List TextRow
  drawings : List DrawingRow
deriving DecidableEq

/-- The viewport filter of `getCanvasElements`: the four SQL conditions
`position_x <= vp.x + vp.width`, `position_x >= vp.x`,
`position_y <= vp.y + vp.height`, `position_y >= vp.y` (inclusive bounds,
anchor position only). -/
def inViewport (vp : CanvasViewport) (r : SharedRow) : Bool :=
  decide (r.position_x ≤ vp.x + vp.width) && decide (vp.x ≤ r.position_x) &&
    decide (r.position_y ≤ vp.y + vp.height) && decide (vp.y ≤ r.position_y)

/-- Insert a row into a list kept ascending by `z_index` (the SQL
`ORDER BY z_index ASC`; tie order is unspecified in SQL). -/
def insertByZ (r : SharedRow) : List SharedRow → List SharedRow
  | [] => [r]
  | s :: rest => if r.z_index ≤ s.z_index then r :: s :: rest else s :: insertByZ r rest

/-- Sort rows ascending by `z_index`. -/
def sortByZ : List SharedRow → List SharedRow
  | [] => []
  | r :: rest => insertByZ r (sortByZ rest)

lemma mem_insertByZ (a r : SharedRow) (l : List SharedRow) :
    a ∈ insertByZ r l ↔ a = r ∨ a ∈ l := by
  induction l with
  | nil => simp [insertByZ]
  | cons s rest ih =>
    by_cases h : r.z_index ≤ s.z_index
    · simp [insertByZ, if_pos h]
    · simp only [insertByZ, if_neg h, List.mem_cons, ih]
      tauto

lemma mem_sortByZ (a : SharedRow) (l : List SharedRow) : a ∈ sortByZ l ↔ a ∈ l := by
  induction l with
  | nil => simp [sortByZ]
  | cons r rest ih =>
    simp only [sortByZ, mem_insertByZ, List.mem_cons, ih]

/-- One result row of the `getCanvasElements` list query: the shared row
left-joined against both payload tables. -/
structure JoinedRow where
  base : SharedRow
  textNote : Option TextRow
  drawing : Option DrawingRow
deriving DecidableEq

/-- The `get_canvas_elements` handler: shared rows, optionally filtered by the
viewport containment test, ordered by ascending `z_index`, left-joined against
both payload tables; returns the rows and the total count. -/
def getCanvasElements (db : DB) (viewport : Option CanvasViewport) :
    List JoinedRow × ℕ :=
  let rows := match viewport with
    | some vp => db.canvasElements.filter (fun r => inViewport vp r)
    | none => db.canvasElements
  let sorted := sortByZ rows
  let elements := sorted.map fun r =>
    { base := r,
      textNote := db.textNotes.find? (fun t => decide (t.id = r.id)),
      drawing := db.drawings.find? (fun d => decide (d.id = r.id)) : JoinedRow }
  (elements, elements.length)

/-- Claim C3: with a viewport, `getCanvasElements` returns exactly the stored
rows whose anchor position lies in
`[vp.x, vp.x+vp.width] × [vp.y, vp.y+vp.height]` (inclusive bounds), and the
containment test never consults the element's size. -/
theorem c3_viewport_filter (db : DB) (vp : CanvasViewport) (r : SharedRow) :
    (r ∈ (getCanvasElements db (some vp)).1.map JoinedRow.base ↔
      r ∈ db.canvasElements ∧
        vp.x ≤ r.position_x ∧ r.position_x ≤ vp.x + vp.width ∧
        vp.y ≤ r.position_y ∧ r.position_y ≤ vp.y + vp.height) ∧
    ∀ w h, inViewport vp { r with width := w, height := h } = inViewport vp r := by
  constructor
  · simp only [getCanvasElements, List.map_map, List.mem_map, Function.comp]
    constructor
    · rintro ⟨j, hj, rfl⟩
      rw [mem_sortByZ, List.mem_filter] at hj
      obtain ⟨hmem, hview⟩ := hj
      simp only [inViewport, Bool.and_eq_true, decide_eq_true_eq] at hview
      exact ⟨hmem, hview.1.1.2, hview.1.1.1, hview.2, hview.1.2⟩
    · rintro ⟨hmem, h1, h2, h3, h4⟩
      refine ⟨r, ?_, rfl⟩
      rw [mem_sortByZ, List.mem_filter]
      refine ⟨hmem, ?_⟩
      simp only [inViewport, Bool.and_eq_true, decide_eq_true_eq]
      exact ⟨⟨⟨h2, h1⟩, h4⟩, h3⟩
  · intro w h
    rfl

/-- An element as returned to the client: the shared fields joined with the
kind-specific payload (the repository's `AnyCanvasElement`). -/
inductive AnyCanvasElement where
  | textNote (base : SharedRow) (content : String) (font_size : ℚ)
      (font_color : String) (background_color : String)
  | drawing (base : SharedRow) (strokes : List Stroke)
deriving DecidableEq

/-- Input of `updateTextNote`: the id plus any subset of mutable fields. -/
structure UpdateTextNoteInput where
  id : String
  position : Option Point
  size : Option Dim
  z_index : Option Int
  content : Option String
  font_size : Option ℚ
  font_color : Option String
  background_color : Option String
deriving DecidableEq

/-- Input of `updateDrawing`: the id plus any subset of mutable fields. -/
structure UpdateDrawingInput where
  id : String
  position : Option Point
  size : Option Dim
  z_index : Option Int
  strokes : Option (List Stroke)
deriving DecidableEq

/-- The `canvasUpdates` object both update handlers build: always refresh
`updated_at`; overwrite position/size/z_index only when provided. -/
def applySharedPatch (now : ℕ) (position : Option Point) (size : Option Dim)
    (z_index : Option Int) (r : SharedRow) : SharedRow :=
  { r with
    updated_at := now
    position_x := match position with | some p => p.x | none => r.position_x
    position_y := match position with | some p => p.y | none => r.position_y
    width := match size with | some s => s.width | none => r.width
    height := match size with | some s => s.height | none => r.height
    z_index := match z_index with | some zz => zz | none => r.z_index }

/-- The `textUpdates` object of `updateTextNote`: overwrite each text field
only when provided. -/
def applyTextPatch (input : UpdateTextNoteInput) (t : TextRow) : TextRow :=
  { t with
    content := input.content.getD t.content
    font_size := input.font_size.getD t.font_size
    font_color := input.font_color.getD t.font_color
    background_color := input.background_color.getD t.background_color }

/-- `UPDATE canvas_elements SET canvasUpdates WHERE id = i`. -/
def updatedCanvasRows (now : ℕ) (i : String) (position : Option Point)
    (size : Option Dim) (z_index : Option Int) (rows : List SharedRow) : List SharedRow :=
  rows.map fun r => if r.id = i then applySharedPatch now position size z_index r else r

/-- `updateTextNote`'s conditional write to `text_notes`: only performed when a
text-specific field was provided. -/
def updatedTextRows (input : UpdateTextNoteInput) (rows : List TextRow) : List TextRow :=
  if input.content.isSome || input.font_size.isSome || input.font_color.isSome ||
      input.background_color.isSome then
    rows.map fun t => if t.id = input.id then applyTextPatch input t else t
  else rows

/-- `updateDrawing`'s conditional write to `drawings`: only performed when
strokes were provided. -/
def updatedDrawingRows (strokes : Option (List Stroke)) (i : String)
    (rows : List DrawingRow) : List DrawingRow :=
  if strokes.isSome then
    rows.map fun d => if d.id = i then { d with strokes := strokes.getD d.strokes } else d
  else rows

/-- `updateTextNote`'s existence check: inner join of `canvas_elements`
(filtered on id and `type = 'text_note'`) with `text_notes`. -/
def existsTextNote (i : String) (db : DB) : Bool :=
  db.canvasElements.any (fun r => decide (r.id = i ∧ r.type = ElemType.text_note)) &&
    db.textNotes.any (fun t => decide (t.id = i))

/-- `updateDrawing`'s existence check: inner join of `canvas_elements`
(filtered on id and `type = 'drawing'`) with `drawings`. -/
def existsDrawing (i : String) (db : DB) : Bool :=
  db.canvasElements.any (fun r => decide (r.id = i ∧ r.type = ElemType.drawing)) &&
    db.drawings.any (fun d => decide (d.id = i))

/-- `updateTextNote`'s final refetch: inner join of the updated shared row with
its text payload row by id, assembled into the returned `TextNote`. -/
def refetchTextNote (i : String) (db : DB) : Except String AnyCanvasElement × DB :=
  match db.canvasElements.find? (fun r => decide (r.id = i)),
      db.textNotes.find? (fun t => decide (t.id = i)) with
  | some r, some t =>
    (Except.ok (AnyCanvasElement.textNote r t.content t.font_size t.font_color
        t.background_color), db)
  | _, _ => (Except.error "refetch failed", db)

/-- `updateDrawing`'s final refetch: inner join of the updated shared row with
its drawing payload row by id, assembled into the returned `Drawing`. -/
def refetchDrawing (i : String) (db : DB) : Except String AnyCanvasElement × DB :=
  match db.canvasElements.find? (fun r => decide (r.id = i)),
      db.drawings.find? (fun d => decide (d.id = i)) with
  | some r, some d => (Except.ok (AnyCanvasElement.drawing r d.strokes), db)
  | _, _ => (Except.error "refetch failed", db)

/-- The `update_text_note` handler: verify existence (id and type), apply the
partial patch to the shared row (always refreshing `updated_at`), apply the
text patch only if a text field was provided, then refetch and return the
merged element.  The pair's second component is the storage state after the
call (unchanged when the handler throws not-found). -/
def updateTextNote (now : ℕ) (input : UpdateTextNoteInput) (db : DB) :
    Except String AnyCanvasElement × DB :=
  if existsTextNote input.id db then
    refetchTextNote input.id
      { db with
        canvasElements := updatedCanvasRows now input.id input.position input.size
          input.z_index db.canvasElements,
        textNotes := updatedTextRows input db.textNotes }
  else (Except.error ("Text note with ID " ++ input.id ++ " not found"), db)

/-- The `update_drawing` handler, analogously. -/
def updateDrawing (now : ℕ) (input : UpdateDrawingInput) (db : DB) :
    Except String AnyCanvasElement × DB :=
  if existsDrawing input.id db then
    refetchDrawing input.id
      { db with
        canvasElements := updatedCanvasRows now input.id input.position input.size
          input.z_index db.canvasElements,
        drawings := updatedDrawingRows input.strokes input.id db.drawings }
  else (Except.error ("Drawing with ID " ++ input.id ++ " not found"), db)

/-- `find?` commutes with mapping a function that does not change the
predicate's verdict. -/
lemma find?_map_pred {α : Type} (l : List α) (f : α → α) (p : α → Bool)
    (hf : ∀ a, p (f a) = p a) :
    (l.map f).find? p = (l.find? p).map f := by
  induction l with
  | nil => rfl
  | cons a l ih =>
    rw [List.map_cons]
    by_cases h : p a = true
    · rw [List.find?_cons_of_pos _ (by rw [hf]; exact h), List.find?_cons_of_pos _ h,
        Option.map_some']
    · rw [List.find?_cons_of_neg _ (by rw [hf]; exact h), List.find?_cons_of_neg _ h, ih]

lemma updatedCanvasRows_find? (now : ℕ) (i : String) (position : Option Point)
    (size : Option Dim) (z_index : Option Int) (rows : List SharedRow) (r : SharedRow)
    (hr : rows.find? (fun x => decide (x.id = i)) = some r) :
    (updatedCanvasRows now i position size z_index rows).find? (fun x => decide (x.id = i))
      = some (applySharedPatch now position size z_index r) := by
  rw [updatedCanvasRows, find?_map_pred _ _ _ ?_, hr, Option.map_some']
  · have h1 := List.find?_some hr
    have hid : r.id = i := of_decide_eq_true h1
    rw [if_pos hid]
  · intro a
    by_cases h : a.id = i
    · rw [if_pos h]
      rfl
    · rw [if_neg h]

lemma mapById_find?_text (g : TextRow → TextRow) (hg : ∀ t, (g t).id = t.id)
    (i : String) (rows : List TextRow) (t : TextRow)
    (ht : rows.find? (fun x => decide (x.id = i)) = some t) :
    (rows.map fun x => if x.id = i then g x else x).find? (fun x => decide (x.id = i))
      = some (g t) := by
  rw [find?_map_pred _ _ _ ?_, ht, Option.map_some']
  · have h1 := List.find?_some ht
    have hid : t.id = i := of_decide_eq_true h1
    rw [if_pos hid]
  · intro a
    by_cases h : a.id = i
    · rw [if_pos h]
      simp [hg a, h]
    · rw [if_neg h]

lemma mapById_find?_drawing (g : DrawingRow → DrawingRow) (hg : ∀ d, (g d).id = d.id)
    (i : String) (rows : List DrawingRow) (d : DrawingRow)
    (hd : rows.find? (fun x => decide (x.id = i)) = some d) :
    (rows.map fun x => if x.id = i then g x else x).find? (fun x => decide (x.id = i))
      = some (g d) := by
  rw [find?_map_pred _ _ _ ?_, hd, Option.map_some']
  · have h1 := List.find?_some hd
    have hid : d.id = i := of_decide_eq_true h1
    rw [if_pos hid]
  · intro a
    by_cases h : a.id = i
    · rw [if_pos h]
      simp [hg a, h]
    · rw [if_neg h]

lemma existsTextNote_true (i : String) (db : DB) (r : SharedRow) (t : TextRow)
    (hr : db.canvasElements.find? (fun x => decide (x.id = i)) = some r)
    (hrty : r.type = ElemType.text_note)
    (ht : db.textNotes.find? (fun x => decide (x.id = i)) = some t) :
    existsTextNote i db = true := by
  rw [existsTextNote, Bool.and_eq_true]
  constructor
  · rw [List.any_eq_true]
    refine ⟨r, List.mem_of_find?_eq_some hr, ?_⟩
    have h1 := List.find?_some hr
    exact decide_eq_true ⟨of_decide_eq_true h1, hrty⟩
  · rw [List.any_eq_true]
    have h1 := List.find?_some ht
    exact ⟨t, List.mem_of_find?_eq_some ht, h1⟩

lemma existsDrawing_true (i : String) (db : DB) (r : SharedRow) (d : DrawingRow)
    (hr : db.canvasElements.find? (fun x => decide (x.id = i)) = some r)
    (hrty : r.type = ElemType.drawing)
    (hd : db.drawings.find? (fun x => decide (x.id = i)) = some d) :
    existsDrawing i db = true := by
  rw [existsDrawing, Bool.and_eq_true]
  constructor
  · rw [List.any_eq_true]
    refine ⟨r, List.mem_of_find?_eq_some hr, ?_⟩
    have h1 := List.find?_some hr
    exact decide_eq_true ⟨of_decide_eq_true h1, hrty⟩
  · rw [List.any_eq_true]
    have h1 := List.find?_some hd
    exact ⟨d, List.mem_of_find?_eq_some hd, h1⟩

lemma refetchTextNote_ok (i : String) (db : DB) (r : SharedRow) (t : TextRow)
    (hr : db.canvasElements.find? (fun x => decide (x.id = i)) = some r)
    (ht : db.textNotes.find? (fun x => decide (x.id = i)) = some t) :
    refetchTextNote i db
      = (Except.ok (AnyCanvasElement.textNote r t.content t.font_size t.font_color
          t.background_color), db) := by
  rw [refetchTextNote, hr, ht]

lemma refetchDrawing_ok (i : String) (db : DB) (r : SharedRow) (d : DrawingRow)
    (hr : db.canvasElements.find? (fun x => decide (x.id = i)) = some r)
    (hd : db.drawings.find? (fun x => decide (x.id = i)) = some d) :
    refetchDrawing i db = (Except.ok (AnyCanvasElement.drawing r d.strokes), db) := by
  rw [refetchDrawing, hr, hd]

lemma applyTextPatch_of_no_field (inp : UpdateTextNoteInput) (t : TextRow)
    (h : (inp.content.isSome || inp.font_size.isSome || inp.font_color.isSome ||
      inp.background_color.isSome) = false) :
    applyTextPatch inp t = t := by
  have h1 : inp.content = none := by
    cases hc : inp.content
    · rfl
    · rw [hc] at h; simp at h
  have h2 : inp.font_size = none := by
    cases hc : inp.font_size
    · rfl
    · rw [hc] at h; simp at h
  have h3 : inp.font_color = none := by
    cases hc : inp.font_color
    · rfl
    · rw [hc] at h; simp at h
  have h4 : inp.background_color = none := by
    cases hc : inp.background_color
    · rfl
    · rw [hc] at h; simp at h
  rw [applyTextPatch, h1, h2, h3, h4]
  rfl

/-- Claim C6: a patch providing only `z_index` leaves position, size and the
payload row untouched in storage and in the returned element while refreshing
`updated_at` to the strictly greater current time, for both `updateTextNote`
and `updateDrawing`; and in general every omitted field retains its prior
value (the returned element is the stored row patched only at the provided
fields). -/
theorem c6_update_retains_omitted_fields (now : ℕ) (db : DB) (i j : String) (zv zw : Int)
    (r : SharedRow) (t : TextRow) (rd : SharedRow) (d : DrawingRow)
    (hr : db.canvasElements.find? (fun x => decide (x.id = i)) = some r)
    (hrty : r.type = ElemType.text_note)
    (ht : db.textNotes.find? (fun x => decide (x.id = i)) = some t)
    (hrt : r.updated_at < now)
    (hd : db.canvasElements.find? (fun x => decide (x.id = j)) = some rd)
    (hdty : rd.type = ElemType.drawing)
    (hdd : db.drawings.find? (fun x => decide (x.id = j)) = some d)
    (hdt : rd.updated_at < now) :
    (updateTextNote now ⟨i, none, none, some zv, none, none, none, none⟩ db
      = (Except.ok (AnyCanvasElement.textNote { r with z_index := zv, updated_at := now }
            t.content t.font_size t.font_color t.background_color),
         { db with canvasElements := db.canvasElements.map fun x =>
             if x.id = i then { x with z_index := zv, updated_at := now } else x })
      ∧ r.updated_at < now) ∧
    (updateDrawing now ⟨j, none, none, some zw, none⟩ db
      = (Except.ok (AnyCanvasElement.drawing { rd with z_index := zw, updated_at := now }
            d.strokes),
         { db with canvasElements := db.canvasElements.map fun x =>
             if x.id = j then { x with z_index := zw, updated_at := now } else x })
      ∧ rd.updated_at < now) ∧
    (∀ inp : UpdateTextNoteInput, inp.id = i →
      ∃ db', updateTextNote now inp db
        = (Except.ok (AnyCanvasElement.textNote
            (applySharedPatch now inp.position inp.size inp.z_index r)
            (applyTextPatch inp t).content (applyTextPatch inp t).font_size
            (applyTextPatch inp t).font_color (applyTextPatch inp t).background_color),
           db')) ∧
    (∀ inp : UpdateDrawingInput, inp.id = j →
      ∃ db', updateDrawing now inp db
        = (Except.ok (AnyCanvasElement.drawing
            (applySharedPatch now inp.position inp.size inp.z_index rd)
            (inp.strokes.getD d.strokes)), db')) := by
  have hexT := existsTextNote_true i db r t hr hrty ht
  have hexD := existsDrawing_true j db rd d hd hdty hdd
  refine ⟨⟨?_, hrt⟩, ⟨?_, hdt⟩, ?_, ?_⟩
  · simp only [updateTextNote, hexT, if_true]
    have etext : updatedTextRows ⟨i, none, none, some zv, none, none, none, none⟩
        db.textNotes = db.textNotes := rfl
    rw [etext]
    have e1 := updatedCanvasRows_find? now i none none (some zv) db.canvasElements r hr
    rw [refetchTextNote_ok i
      { canvasElements := updatedCanvasRows now i none none (some zv) db.canvasElements,
        textNotes := db.textNotes, drawings := db.drawings }
      (applySharedPatch now none none (some zv) r) t e1 ht]
    rfl
  · simp only [updateDrawing, hexD, if_true]
    have edraw : updatedDrawingRows none j db.drawings = db.drawings := rfl
    rw [edraw]
    have e1 := updatedCanvasRows_find? now j none none (some zw) db.canvasElements rd hd
    rw [refetchDrawing_ok j
      { canvasElements := updatedCanvasRows now j none none (some zw) db.canvasElements,
        textNotes := db.textNotes, drawings := db.drawings }
      (applySharedPatch now none none (some zw) rd) d e1 hdd]
    rfl
  · intro inp hinp
    have e1 := updatedCanvasRows_find? now i inp.position inp.size inp.z_index
      db.canvasElements r hr
    by_cases hcond : (inp.content.isSome || inp.font_size.isSome || inp.font_color.isSome ||
        inp.background_color.isSome) = true
    · refine ⟨DB.mk
        (updatedCanvasRows now i inp.position inp.size inp.z_index db.canvasElements)
        (db.textNotes.map fun x => if x.id = i then applyTextPatch inp x else x)
        db.drawings, ?_⟩
      simp only [updateTextNote, hinp, hexT, if_true]
      have etext : updatedTextRows inp db.textNotes
          = db.textNotes.map fun x => if x.id = inp.id then applyTextPatch inp x else x := by
        rw [updatedTextRows, if_pos hcond]
      rw [etext, hinp]
      have e2 := mapById_find?_text (applyTextPatch inp) (fun _ => rfl) i db.textNotes t ht
      rw [refetchTextNote_ok i
        { canvasElements := updatedCanvasRows now i inp.position inp.size inp.z_index
            db.canvasElements,
          textNotes := db.textNotes.map fun x =>
            if x.id = i then applyTextPatch inp x else x,
          drawings := db.drawings }
        (applySharedPatch now inp.position inp.size inp.z_index r)
        (applyTextPatch inp t) e1 e2]
    · refine ⟨DB.mk
        (updatedCanvasRows now i inp.position inp.size inp.z_index db.canvasElements)
        db.textNotes db.drawings, ?_⟩
      simp only [updateTextNote, hinp, hexT, if_true]
      have hcond' : (inp.content.isSome || inp.font_size.isSome || inp.font_color.isSome ||
          inp.background_color.isSome) = false := by
        cases hb : (inp.content.isSome || inp.font_size.isSome || inp.font_color.isSome ||
            inp.background_color.isSome)
        · rfl
        · exact absurd hb hcond
      have etext : updatedTextRows inp db.textNotes = db.textNotes := by
        rw [updatedTextRows, hcond']
        rfl
      rw [etext]
      rw [refetchTextNote_ok i
        { canvasElements := updatedCanvasRows now i inp.position inp.size inp.z_index
            db.canvasElements,
          textNotes := db.textNotes, drawings := db.drawings }
        (applySharedPatch now inp.position inp.size inp.z_index r) t e1 ht,
        applyTextPatch_of_no_field inp t hcond']
  · intro inp hinp
    have e1 := updatedCanvasRows_find? now j inp.position inp.size inp.z_index
      db.canvasElements rd hd
    by_cases hcond : inp.strokes.isSome = true
    · refine ⟨DB.mk
        (updatedCanvasRows now j inp.position inp.size inp.z_index db.canvasElements)
        db.textNotes
        (db.drawings.map fun x =>
          if x.id = j then { x with strokes := inp.strokes.getD x.strokes } else x), ?_⟩
      simp only [updateDrawing, hinp, hexD, if_true]
      have edraw : updatedDrawingRows inp.strokes j db.drawings
          = db.drawings.map fun x =>
              if x.id = j then { x with strokes := inp.strokes.getD x.strokes } else x := by
        rw [updatedDrawingRows, if_pos hcond]
      rw [edraw]
      have e2 := mapById_find?_drawing
        (fun x => { x with strokes := inp.strokes.getD x.strokes }) (fun _ => rfl)
        j db.drawings d hdd
      rw [refetchDrawing_ok j
        { canvasElements := updatedCanvasRows now j inp.position inp.size inp.z_index
            db.canvasElements,
          textNotes := db.textNotes,
          drawings := db.drawings.map fun x =>
            if x.id = j then { x with strokes := inp.strokes.getD x.strokes } else x }
        (applySharedPatch now inp.position inp.size inp.z_index rd)
        { d with strokes := inp.strokes.getD d.strokes } e1 e2]
    · refine ⟨DB.mk
        (updatedCanvasRows now j inp.position inp.size inp.z_index db.canvasElements)
        db.textNotes db.drawings, ?_⟩
      simp only [updateDrawing, hinp, hexD, if_true]
      have hnone : inp.strokes = none := by
        cases hc : inp.strokes
        · rfl
        · rw [hc] at hcond; simp at hcond
      have edraw : updatedDrawingRows inp.strokes j db.drawings = db.drawings := by
        rw [hnone]
        rfl
      rw [edraw]
      rw [refetchDrawing_ok j
        { canvasElements := updatedCanvasRows now j inp.position inp.size inp.z_index
            db.canvasElements,
          textNotes := db.textNotes, drawings := db.drawings }
        (applySharedPatch now inp.position inp.size inp.z_index rd) d e1 hdd, hnone]
      rfl

/-- Witness for C6: a z-index-only patch on a concrete two-element store. -/
theorem c6_update_retains_omitted_fields_witness :
    updateTextNote 5 ⟨"t1", none, none, some 7, none, none, none, none⟩
        ⟨[⟨"t1", ElemType.text_note, 1, 2, 3, 4, 0, 1, 1⟩,
          ⟨"d1", ElemType.drawing, 5, 6, 7, 8, 0, 1, 1⟩],
         [⟨"t1", "hi", 16, "#000000", "#ffff88"⟩], [⟨"d1", []⟩]⟩
      = (Except.ok (AnyCanvasElement.textNote
          { (⟨"t1", ElemType.text_note, 1, 2, 3, 4, 0, 1, 1⟩ : SharedRow) with
              z_index := 7, updated_at := 5 }
          "hi" 16 "#000000" "#ffff88"),
         { (⟨[⟨"t1", ElemType.text_note, 1, 2, 3, 4, 0, 1, 1⟩,
              ⟨"d1", ElemType.drawing, 5, 6, 7, 8, 0, 1, 1⟩],
             [⟨"t1", "hi", 16, "#000000", "#ffff88"⟩], [⟨"d1", []⟩]⟩ : DB) with
            canvasElements :=
              [⟨"t1", ElemType.text_note, 1, 2, 3, 4, 0, 1, 1⟩,
               ⟨"d1", ElemType.drawing, 5, 6, 7, 8, 0, 1, 1⟩].map fun x =>
                if x.id = "t1" then { x with z_index := 7, updated_at := 5 } else x })
      ∧ (1 : ℕ) < 5 :=
  (c6_update_retains_omitted_fields 5
    ⟨[⟨"t1", ElemType.text_note, 1, 2, 3, 4, 0, 1, 1⟩,
      ⟨"d1", ElemType.drawing, 5, 6, 7, 8, 0, 1, 1⟩],
     [⟨"t1", "hi", 16, "#000000", "#ffff88"⟩], [⟨"d1", []⟩]⟩
    "t1" "d1" 7 9
    ⟨"t1", ElemType.text_note, 1, 2, 3, 4, 0, 1, 1⟩
    ⟨"t1", "hi", 16, "#000000", "#ffff88"⟩
    ⟨"d1", ElemType.drawing, 5, 6, 7, 8, 0, 1, 1⟩
    ⟨"d1", []⟩
    (by decide) rfl (by decide) (by decide)
    (by decide) rfl (by decide) (by decide)).1

/-- The fields of a shared row no update may change: id, type, creation time. -/
def typeStamp (r : SharedRow) : String × ElemType × ℕ :=
  (r.id, r.type, r.created_at)

lemma refetchTextNote_snd (i : String) (db : DB) : (refetchTextNote i db).2 = db := by
  rw [refetchTextNote]
  split <;> rfl

lemma refetchDrawing_snd (i : String) (db : DB) : (refetchDrawing i db).2 = db := by
  rw [refetchDrawing]
  split <;> rfl

lemma updatedCanvasRows_typeStamp (now : ℕ) (i : String) (position : Option Point)
    (size : Option Dim) (z_index : Option Int) (rows : List SharedRow) :
    (updatedCanvasRows now i position size z_index rows).map typeStamp
      = rows.map typeStamp := by
  rw [updatedCanvasRows]
  induction rows with
  | nil => rfl
  | cons a l ih =>
    simp only [List.map_cons, ih]
    congr 1
    by_cases h : a.id = i
    · rw [if_pos h]
      rfl
    · rw [if_neg h]

/-- Claim C9: neither update handler can change an element's `type` or
`created_at` (they are preserved by every call, on every row), and an update
aimed at an id whose stored row has the other type fails with a not-found
error and leaves storage unchanged, because the existence check filters on
both id and type. -/
theorem c9_type_immutable (now : ℕ) (db : DB) (tIn : UpdateTextNoteInput)
    (dIn : UpdateDrawingInput) :
    (updateTextNote now tIn db).2.canvasElements.map typeStamp
        = db.canvasElements.map typeStamp ∧
    (updateDrawing now dIn db).2.canvasElements.map typeStamp
        = db.canvasElements.map typeStamp ∧
    ((∀ r ∈ db.canvasElements, r.id = tIn.id → r.type = ElemType.drawing) →
      updateTextNote now tIn db
        = (Except.error ("Text note with ID " ++ tIn.id ++ " not found"), db)) ∧
    ((∀ r ∈ db.canvasElements, r.id = dIn.id → r.type = ElemType.text_note) →
      updateDrawing now dIn db
        = (Except.error ("Drawing with ID " ++ dIn.id ++ " not found"), db)) := by
  refine ⟨?_, ?_, ?_, ?_⟩
  · simp only [updateTextNote]
    split
    · rw [refetchTextNote_snd]
      exact updatedCanvasRows_typeStamp now tIn.id tIn.position tIn.size tIn.z_index
        db.canvasElements
    · rfl
  · simp only [updateDrawing]
    split
    · rw [refetchDrawing_snd]
      exact updatedCanvasRows_typeStamp now dIn.id dIn.position dIn.size dIn.z_index
        db.canvasElements
    · rfl
  · intro h
    have h1 : db.canvasElements.any
        (fun r => decide (r.id = tIn.id ∧ r.type = ElemType.text_note)) = false := by
      rw [List.any_eq_false]
      intro r hrm
      simp only [decide_eq_true_eq]
      rintro ⟨hid, hty⟩
      have := h r hrm hid
      rw [this] at hty
      cases hty
    have hex : existsTextNote tIn.id db = false := by
      rw [existsTextNote, h1, Bool.false_and]
    simp only [updateTextNote]
    rw [if_neg (ne_true_of_eq_false hex)]
  · intro h
    have h1 : db.canvasElements.any
        (fun r => decide (r.id = dIn.id ∧ r.type = ElemType.drawing)) = false := by
      rw [List.any_eq_false]
      intro r hrm
      simp only [decide_eq_true_eq]
      rintro ⟨hid, hty⟩
      have := h r hrm hid
      rw [this] at hty
      cases hty
    have hex : existsDrawing dIn.id db = false := by
      rw [existsDrawing, h1, Bool.false_and]
    simp only [updateDrawing]
    rw [if_neg (ne_true_of_eq_false hex)]

/-- Witness for C9: wrong-typed updates on a concrete store fail not-found and
leave the store unchanged. -/
theorem c9_type_immutable_witness :
    updateTextNote 5 ⟨"d1", none, none, none, none, none, none, none⟩
        ⟨[⟨"d1", ElemType.drawing, 0, 0, 1, 1, 0, 1, 1⟩,
          ⟨"t1", ElemType.text_note, 2, 2, 1, 1, 0, 1, 1⟩],
         [⟨"t1", "hi", 16, "#000000", "#ffff88"⟩], [⟨"d1", []⟩]⟩
      = (Except.error ("Text note with ID " ++ "d1" ++ " not found"),
         ⟨[⟨"d1", ElemType.drawing, 0, 0, 1, 1, 0, 1, 1⟩,
           ⟨"t1", ElemType.text_note, 2, 2, 1, 1, 0, 1, 1⟩],
          [⟨"t1", "hi", 16, "#000000", "#ffff88"⟩], [⟨"d1", []⟩]⟩) ∧
    updateDrawing 5 ⟨"t1", none, none, none, none⟩
        ⟨[⟨"d1", ElemType.drawing, 0, 0, 1, 1, 0, 1, 1⟩,
          ⟨"t1", ElemType.text_note, 2, 2, 1, 1, 0, 1, 1⟩],
         [⟨"t1", "hi", 16, "#000000", "#ffff88"⟩], [⟨"d1", []⟩]⟩
      = (Except.error ("Drawing with ID " ++ "t1" ++ " not found"),
         ⟨[⟨"d1", ElemType.drawing, 0, 0, 1, 1, 0, 1, 1⟩,
           ⟨"t1", ElemType.text_note, 2, 2, 1, 1, 0, 1, 1⟩],
          [⟨"t1", "hi", 16, "#000000", "#ffff88"⟩], [⟨"d1", []⟩]⟩) :=
  ⟨(c9_type_immutable 5
      ⟨[⟨"d1", ElemType.drawing, 0, 0, 1, 1, 0, 1, 1⟩,
        ⟨"t1", ElemType.text_note, 2, 2, 1, 1, 0, 1, 1⟩],
       [⟨"t1", "hi", 16, "#000000", "#ffff88"⟩], [⟨"d1", []⟩]⟩
      ⟨"d1", none, none, none, none, none, none, none⟩
      ⟨"t1", none, none, none, none⟩).2.2.1 (by decide),
   (c9_type_immutable 5
      ⟨[⟨"d1", ElemType.drawing, 0, 0, 1, 1, 0, 1, 1⟩,
        ⟨"t1", ElemType.text_note, 2, 2, 1, 1, 0, 1, 1⟩],
       [⟨"t1", "hi", 16, "#000000", "#ffff88"⟩], [⟨"d1", []⟩]⟩
      ⟨"d1", none, none, none, none, none, none, none⟩
      ⟨"t1", none, none, none, none⟩).2.2.2 (by decide)⟩

/-- One entry of the `bulkUpdateElements` batch: id plus optional position and
z-index. -/
structure BulkUpdateEntry where
  id : String
  position : Option Point
  z_index : Option Int
deriving DecidableEq

/-- The per-row `updateData` of `bulkUpdateElements`: overwrite position and
z-index when provided and refresh `updated_at`. -/
def applyBulkRow (now : ℕ) (u : BulkUpdateEntry) (r : SharedRow) : SharedRow :=
  { r with
    updated_at := now
    position_x := match u.position with | some p => p.x | none => r.position_x
    position_y := match u.position with | some p => p.y | none => r.position_y
    z_index := match u.z_index with | some zz => zz | none => r.z_index }

/-- One iteration of the `bulkUpdateElements` transaction loop: the `UPDATE`
is issued only when the entry carries an actual change beyond `updated_at`
(the `Object.keys(updateData).length > 1` guard). -/
def applyBulkEntry (now : ℕ) (rows : List SharedRow) (u : BulkUpdateEntry) :
    List SharedRow :=
  if u.position.isSome || u.z_index.isSome then
    rows.map fun r => if r.id = u.id then applyBulkRow now u r else r
  else rows

/-- The result assembly of `bulkUpdateElements`: join a selected shared row
with its payload row, throwing when the payload row is missing. -/
def assembleElement (db : DB) (r : SharedRow) : Except String AnyCanvasElement :=
  match r.type with
  | ElemType.text_note =>
    match db.textNotes.find? (fun t => decide (t.id = r.id)) with
    | some tn => Except.ok (AnyCanvasElement.textNote r tn.content tn.font_size
        tn.font_color tn.background_color)
    | none => Except.error ("Text note data not found for element " ++ r.id)
  | ElemType.drawing =>
    match db.drawings.find? (fun d => decide (d.id = r.id)) with
    | some d => Except.ok (AnyCanvasElement.drawing r d.strokes)
    | none => Except.error ("Drawing data not found for element " ++ r.id)

/-- The `bulk_update_elements` handler: empty batch is a no-op; otherwise each
entry is applied in order inside one transaction, then the rows whose ids are
in the batch are re-read and joined with their payloads.  The pair's second
component is the storage state after the call. -/
def bulkUpdateElements (now : ℕ) (updates : List BulkUpdateEntry) (db : DB) :
    Except String (List AnyCanvasElement) × DB :=
  if updates.isEmpty then (Except.ok [], db)
  else
    let elementIds := updates.map fun u => u.id
    let newRows := updates.foldl (applyBulkEntry now) db.canvasElements
    let db' : DB := { db with canvasElements := newRows }
    let selected := newRows.filter fun r => decide (r.id ∈ elementIds)
    match selected.mapM (assembleElement db') with
    | Except.ok es => (Except.ok es, db')
    | Except.error e => (Except.error e, db')

lemma map_untouched (f : SharedRow → SharedRow) (i : String) (rows : List SharedRow)
    (h : ∀ r ∈ rows, r.id ≠ i) :
    (rows.map fun r => if r.id = i then f r else r) = rows := by
  induction rows with
  | nil => rfl
  | cons a l ih =>
    rw [List.map_cons, if_neg (h a (List.mem_cons_self a l)),
      ih fun r hr => h r (List.mem_cons_of_mem a hr)]

lemma foldl_applyBulkEntry_of_absent (now : ℕ) (updates : List BulkUpdateEntry)
    (rows : List SharedRow) (h : ∀ u ∈ updates, ∀ r ∈ rows, r.id ≠ u.id) :
    updates.foldl (applyBulkEntry now) rows = rows := by
  induction updates with
  | nil => rfl
  | cons u us ih =>
    rw [List.foldl_cons]
    have e : applyBulkEntry now rows u = rows := by
      rw [applyBulkEntry]
      split
      · exact map_untouched (applyBulkRow now u) u.id rows
          (h u (List.mem_cons_self u us))
      · rfl
    rw [e]
    exact ih fun v hv r hr => h v (List.mem_cons_of_mem u hv) r hr

lemma foldl_applyBulkEntry_of_noop (now : ℕ) (updates : List BulkUpdateEntry)
    (rows : List SharedRow) (h : ∀ u ∈ updates, u.position = none ∧ u.z_index = none) :
    updates.foldl (applyBulkEntry now) rows = rows := by
  induction updates with
  | nil => rfl
  | cons u us ih =>
    rw [List.foldl_cons]
    have hcond : (u.position.isSome || u.z_index.isSome) = false := by
      rw [(h u (List.mem_cons_self u us)).1, (h u (List.mem_cons_self u us)).2]
      rfl
    have e : applyBulkEntry now rows u = rows := by
      rw [applyBulkEntry, if_neg (ne_true_of_eq_false hcond)]
    rw [e]
    exact ih fun v hv => h v (List.mem_cons_of_mem u hv)

/-- Claim C1, counterexample: a batch whose only entry references an id with
no shared row succeeds with an empty result and unchanged storage — no
DataIntegrityError is surfaced and the entry is silently dropped. -/
theorem c1_counterexample :
    bulkUpdateElements 5 [⟨"missing", some ⟨1, 2⟩, none⟩]
        ⟨[⟨"a", ElemType.text_note, 0, 0, 1, 1, 0, 1, 1⟩],
         [⟨"a", "x", 16, "#000000", "#ffff88"⟩], []⟩
      = (Except.ok [],
         ⟨[⟨"a", ElemType.text_note, 0, 0, 1, 1, 0, 1, 1⟩],
          [⟨"a", "x", 16, "#000000", "#ffff88"⟩], []⟩) := rfl

/-- Claim C1, amended: batch entries whose id has no shared row are silently
skipped; in particular a batch made up entirely of unknown ids returns ok with
an empty element list and leaves storage unchanged. -/
theorem c1_unknown_ids_dropped (now : ℕ) (updates : List BulkUpdateEntry) (db : DB)
    (h : ∀ u ∈ updates, ∀ r ∈ db.canvasElements, r.id ≠ u.id) :
    bulkUpdateElements now updates db = (Except.ok [], db) := by
  cases updates with
  | nil => rfl
  | cons u us =>
    simp only [bulkUpdateElements, List.isEmpty_cons, Bool.false_eq_true, if_false]
    rw [foldl_applyBulkEntry_of_absent now (u :: us) db.canvasElements h]
    have hfil : db.canvasElements.filter
        (fun r => decide (r.id ∈ (u :: us).map fun v => v.id)) = [] := by
      rw [List.filter_eq_nil_iff]
      intro r hr
      simp only [decide_eq_true_eq]
      intro hmem
      rw [List.mem_map] at hmem
      obtain ⟨v, hv, hvid⟩ := hmem
      exact h v hv r hr hvid.symm
    rw [hfil]
    rfl

/-- Witness for the amended C1 on a concrete store and unknown id. -/
theorem c1_unknown_ids_dropped_witness :
    bulkUpdateElements 7 [⟨"zzz", none, some 3⟩]
        ⟨[⟨"a", ElemType.text_note, 0, 0, 1, 1, 0, 1, 1⟩],
         [⟨"a", "x", 16, "#000000", "#ffff88"⟩], []⟩
      = (Except.ok [],
         ⟨[⟨"a", ElemType.text_note, 0, 0, 1, 1, 0, 1, 1⟩],
          [⟨"a", "x", 16, "#000000", "#ffff88"⟩], []⟩) :=
  c1_unknown_ids_dropped 7 [⟨"zzz", none, some 3⟩]
    ⟨[⟨"a", ElemType.text_note, 0, 0, 1, 1, 0, 1, 1⟩],
     [⟨"a", "x", 16, "#000000", "#ffff88"⟩], []⟩ (by decide)

/-- Claim C7, counterexample: a batch entry with neither position nor z-index
does not refresh the stored `updated_at` (the write is skipped entirely by the
`length > 1` guard): at time 20 the stored timestamp remains 10. -/
theorem c7_counterexample :
    (bulkUpdateElements 20 [⟨"a", none, none⟩]
        ⟨[⟨"a", ElemType.text_note, 0, 0, 1, 1, 0, 1, 10⟩],
         [⟨"a", "x", 16, "#000000", "#ffff88"⟩], []⟩).2.canvasElements.map
      SharedRow.updated_at = [10] ∧ (10 : ℕ) ≠ 20 :=
  ⟨rfl, by decide⟩

/-- Claim C7, amended: batch entries providing neither position nor z-index
are skipped entirely — storage, including `updated_at`, is left unchanged. -/
theorem c7_noop_entries_skipped (now : ℕ) (updates : List BulkUpdateEntry) (db : DB)
    (h : ∀ u ∈ updates, u.position = none ∧ u.z_index = none) :
    (bulkUpdateElements now updates db).2 = db := by
  cases updates with
  | nil => rfl
  | cons u us =>
    simp only [bulkUpdateElements, List.isEmpty_cons, Bool.false_eq_true, if_false]
    rw [foldl_applyBulkEntry_of_noop now (u :: us) db.canvasElements h]
    split <;> rfl

/-- Witness for the amended C7 on a concrete store and no-op entry. -/
theorem c7_noop_entries_skipped_witness :
    (bulkUpdateElements 20 [⟨"b", none, none⟩]
        ⟨[⟨"b", ElemType.text_note, 0, 0, 1, 1, 0, 1, 10⟩],
         [⟨"b", "x", 16, "#000000", "#ffff88"⟩], []⟩).2
      = ⟨[⟨"b", ElemType.text_note, 0, 0, 1, 1, 0, 1, 10⟩],
         [⟨"b", "x", 16, "#000000", "#ffff88"⟩], []⟩ :=
  c7_noop_entries_skipped 20 [⟨"b", none, none⟩]
    ⟨[⟨"b", ElemType.text_note, 0, 0, 1, 1, 0, 1, 10⟩],
     [⟨"b", "x", 16, "#000000", "#ffff88"⟩], []⟩ (by decide)

/-- Input of `createTextNote`; optional fields carry the handler's defaults
(`?? 16`, `?? '#000000'`, `?? '#ffff88'`, `?? 0`). -/
structure CreateTextNoteInput where
  position : Point
  size : Dim
  content : String
  font_size : Option ℚ
  font_color : Option String
  background_color : Option String
  z_index : Option Int
deriving DecidableEq

/-- The `create_text_note` handler over fallible storage: the shared-row insert
and the payload-row insert are two separate statements with no enclosing
transaction, so each may fail independently (`sharedInsertFails`,
`payloadInsertFails` inject the storage failures).  The pair's second
component is the storage state when the call returns or throws. -/
def createTextNote (now : ℕ) (newId : String) (input : CreateTextNoteInput) (db : DB)
    (sharedInsertFails payloadInsertFails : Bool) :
    Except String AnyCanvasElement × DB :=
  if sharedInsertFails then (Except.error "storage error", db)
  else
    let shared : SharedRow :=
      { id := newId, type := ElemType.text_note,
        position_x := input.position.x, position_y := input.position.y,
        width := input.size.width, height := input.size.height,
        z_index := input.z_index.getD 0, created_at := now, updated_at := now }
    let db1 : DB := { db with canvasElements := db.canvasElements ++ [shared] }
    if payloadInsertFails then (Except.error "storage error", db1)
    else
      let tn : TextRow :=
        { id := newId, content := input.content, font_size := input.font_size.getD 16,
          font_color := input.font_color.getD "#000000",
          background_color := input.background_color.getD "#ffff88" }
      let db2 : DB := { db1 with textNotes := db1.textNotes ++ [tn] }
      (Except.ok (AnyCanvasElement.textNote shared tn.content tn.font_size tn.font_color
          tn.background_color), db2)

/-- Input of `createDrawing` (`z_index` is passed through unchanged). -/
structure CreateDrawingFullInput where
  position : Point
  size : Dim
  strokes : List Stroke
  z_index : Int
deriving DecidableEq

/-- The `create_drawing` handler over fallible storage, analogously to
`createTextNote`: two separate inserts, no transaction. -/
def createDrawing (now : ℕ) (newId : String) (input : CreateDrawingFullInput) (db : DB)
    (sharedInsertFails payloadInsertFails : Bool) :
    Except String AnyCanvasElement × DB :=
  if sharedInsertFails then (Except.error "storage error", db)
  else
    let shared : SharedRow :=
      { id := newId, type := ElemType.drawing,
        position_x := input.position.x, position_y := input.position.y,
        width := input.size.width, height := input.size.height,
        z_index := input.z_index, created_at := now, updated_at := now }
    let db1 : DB := { db with canvasElements := db.canvasElements ++ [shared] }
    if payloadInsertFails then (Except.error "storage error", db1)
    else
      let dr : DrawingRow := { id := newId, strokes := input.strokes }
      let db2 : DB := { db1 with drawings := db1.drawings ++ [dr] }
      (Except.ok (AnyCanvasElement.drawing shared dr.strokes), db2)

/-- Claim C2, evaluated at the failing input: when the payload insert fails
after the shared insert succeeded, both create handlers throw — but the
shared row already written remains in storage with no payload row (an orphan),
so the operation is not atomic. -/
theorem c2_create_not_atomic :
    (createTextNote 5 "n1" ⟨⟨1, 2⟩, ⟨3, 4⟩, "hello", none, none, none, none⟩
        ⟨[], [], []⟩ false true).1 = Except.error "storage error" ∧
    ((createTextNote 5 "n1" ⟨⟨1, 2⟩, ⟨3, 4⟩, "hello", none, none, none, none⟩
        ⟨[], [], []⟩ false true).2.canvasElements.map SharedRow.id = ["n1"] ∧
      (createTextNote 5 "n1" ⟨⟨1, 2⟩, ⟨3, 4⟩, "hello", none, none, none, none⟩
        ⟨[], [], []⟩ false true).2.textNotes = []) ∧
    (createDrawing 5 "n2" ⟨⟨1, 2⟩, ⟨3, 4⟩, [], 0⟩ ⟨[], [], []⟩ false true).1
        = Except.error "storage error" ∧
    ((createDrawing 5 "n2" ⟨⟨1, 2⟩, ⟨3, 4⟩, [], 0⟩ ⟨[], [], []⟩
        false true).2.canvasElements.map SharedRow.id = ["n2"] ∧
      (createDrawing 5 "n2" ⟨⟨1, 2⟩, ⟨3, 4⟩, [], 0⟩ ⟨[], [], []⟩
        false true).2.drawings = []) :=
  ⟨rfl, ⟨rfl, rfl⟩, rfl, rfl, rfl⟩

end InfCanvas
